import Mathlib

/-!
Verification development for the conversation-memory and response-decision
subsystem of a Telegram chat-assistant service (source: `src/main.py`).

The Python source is shallowly embedded:
* strings are Lean `String`s and Python slicing/stripping is modelled on
  their character lists (`String.data`);
* SQLite rows become Lean structures; the per-chat message log is a list of
  rows with an auto-incremented `id`, and `SELECT ... ORDER BY ts DESC
  LIMIT 300` is modelled as sorting by `(ts, id)` descending followed by
  `take 300` (SQLite scans the `(chat_id, ts)` index backwards, and index
  entries with equal `ts` are ordered by rowid, so the scan yields rows in
  `(ts, rowid)`-descending order);
* fallible I/O (storage reads/writes, the OpenAI call) is modelled by
  `Except` values supplied as oracles: a handler receives the outcome each
  awaited call would have produced and combines them exactly the way the
  Python control flow (early `return`, `try`/`except`) does;
* `asyncio.sleep` durations and the retry backoff are exact rationals
  (`0.8 = 4/5`, `1.2 = 6/5`), and `random.random()` is an oracle sequence
  of rationals in `[0, 1)`.
-/

namespace CB

/-- The whitespace set of Python `str.strip()` with no argument, i.e. the
characters with `str.isspace()` true: the ASCII whitespace
`' '`, `\t`, `\n`, `\r`, `\x0b`, `\x0c`, the information separators
`\x1c`-`\x1f`, next line `\x85`, no-break space `\xa0`, and the Unicode
space separators (U+1680, U+2000-U+200A, U+2028, U+2029, U+202F, U+205F,
U+3000). -/
def pyIsSpace (c : Char) : Bool :=
  c == ' ' || c == '\t' || c == '\n' || c == '\r' || c == '\x0b' || c == '\x0c'
    || c == '\x1c' || c == '\x1d' || c == '\x1e' || c == '\x1f'
    || c == '\x85' || c == '\xa0'
    || c == '\u1680' || ('\u2000' ≤ c && c ≤ '\u200a')
    || c == '\u2028' || c == '\u2029' || c == '\u202f' || c == '\u205f'
    || c == '\u3000'

/-- Python `str.strip()` on a character list: drop leading and trailing
whitespace. -/
def pyStripL (l : List Char) : List Char :=
  ((l.dropWhile pyIsSpace).reverse.dropWhile pyIsSpace).reverse

/-- Python `str.strip()`. -/
def pyStrip (s : String) : String :=
  ⟨pyStripL s.data⟩

/-- Python slicing `s[:n]`: the first `n` characters of `s`. -/
def strTake (s : String) (n : Nat) : String :=
  ⟨s.data.take n⟩

/-- `listStarts n h` holds when `n` is an initial segment of `h`
(helper for the Python substring test `n in h`). -/
def listStarts : List Char → List Char → Bool
  | [], _ => true
  | _ :: _, [] => false
  | c :: cs, d :: ds => c == d && listStarts cs ds

/-- Python substring containment `needle in hay`, character-exact. -/
def hasSub (needle : List Char) : List Char → Bool
  | [] => listStarts needle []
  | c :: hs => listStarts needle (c :: hs) || hasSub needle hs

theorem listStarts_iff (n : List Char) :
    ∀ h, listStarts n h = true ↔ ∃ t, h = n ++ t := by
  induction n with
  | nil =>
    intro h
    simp [listStarts]
  | cons c cs ih =>
    intro h
    cases h with
    | nil => simp [listStarts]
    | cons d ds =>
      simp only [listStarts, Bool.and_eq_true, beq_iff_eq, ih, List.cons_append,
        List.cons.injEq]
      constructor
      · rintro ⟨rfl, t, rfl⟩
        exact ⟨t, rfl, rfl⟩
      · rintro ⟨t, rfl, rfl⟩
        exact ⟨rfl, t, rfl⟩

theorem hasSub_iff (n : List Char) :
    ∀ h, hasSub n h = true ↔ ∃ a b, h = a ++ n ++ b := by
  intro h
  induction h with
  | nil =>
    simp only [hasSub, listStarts_iff]
    constructor
    · rintro ⟨t, ht⟩
      rcases List.append_eq_nil.mp ht.symm with ⟨rfl, rfl⟩
      exact ⟨[], [], rfl⟩
    · rintro ⟨a, b, hab⟩
      rcases List.append_eq_nil.mp hab.symm with ⟨h1, rfl⟩
      rcases List.append_eq_nil.mp h1 with ⟨rfl, rfl⟩
      exact ⟨[], rfl⟩
  | cons c hs ih =>
    simp only [hasSub, Bool.or_eq_true, listStarts_iff, ih]
    constructor
    · rintro (⟨t, ht⟩ | ⟨a, b, hab⟩)
      · exact ⟨[], t, by simpa using ht⟩
      · exact ⟨c :: a, b, by simp [hab]⟩
    · rintro ⟨a, b, hab⟩
      cases a with
      | nil =>
        exact Or.inl ⟨b, by simpa using hab⟩
      | cons a0 as =>
        simp only [List.cons_append, List.cons.injEq] at hab
        exact Or.inr ⟨as, b, hab.2⟩

/-- If some character of `l` is not whitespace, `str.strip()` leaves a
non-empty string. -/
theorem pyStripL_ne_nil (l : List Char) (hc : ∃ c, c ∈ l ∧ pyIsSpace c = false) :
    pyStripL l ≠ [] := by
  rcases hc with ⟨c, hmem, hcs⟩
  intro hnil
  have h1 : (l.dropWhile pyIsSpace).reverse.dropWhile pyIsSpace = [] := by
    have := congrArg List.reverse hnil
    simpa [pyStripL] using this
  have h2 : ∀ x ∈ (l.dropWhile pyIsSpace).reverse, pyIsSpace x = true :=
    List.dropWhile_eq_nil_iff.mp h1
  have h3 : ∀ x ∈ l.dropWhile pyIsSpace, pyIsSpace x = true := by
    intro x hx
    exact h2 x (List.mem_reverse.mpr hx)
  have h4 : ∀ x ∈ l, pyIsSpace x = true := by
    intro x hx
    have hx' : x ∈ l.takeWhile pyIsSpace ++ l.dropWhile pyIsSpace := by
      rw [List.takeWhile_append_dropWhile]
      exact hx
    rcases List.mem_append.mp hx' with h | h
    · exact List.mem_takeWhile_imp h
    · exact h3 x h
  rw [h4 c hmem] at hcs
  cases hcs

/-! ### Inbound events and the reply policy (`on_text`, lines 251-297) -/

/-- Telegram chat kinds handled by the catch-all text handler. -/
inductive ChatType
  | privateChat
  | group
  | supergroup
deriving DecidableEq

/-- Message-entity kinds; the policy only distinguishes `mention`. -/
inductive EntityKind
  | mention
  | otherKind
deriving DecidableEq

/-- The author of a message (`from_user`). -/
structure UserRef where
  id : Nat
  username : Option String
deriving DecidableEq

/-- A `reply_to_message` reference: only its author matters to the policy. -/
structure ReplyRef where
  fromUser : Option UserRef
deriving DecidableEq

/-- The bot's own identity (`await bot.me()`). -/
structure SelfUser where
  id : Nat
  username : String
deriving DecidableEq

/-- A normalized inbound text event as consumed by `on_text`. -/
structure Event where
  chatType : ChatType
  text : String
  entities : List EntityKind
  replyTo : Option ReplyRef
deriving DecidableEq

/-- The reply-policy decision of `on_text` (`main.py` lines 261-281):
private chat, or a mention entity, or the literal substring
`"@" + self_username` in the text, or a reply to a message authored by the
bot itself. `text` is the handler's local text variable. -/
def should_respond (selfU : SelfUser) (chatType : ChatType) (text : String)
    (entities : List EntityKind) (replyTo : Option ReplyRef) : Bool :=
  let is_private := chatType == ChatType.privateChat
  let mentioned :=
    entities.any (fun e => e == EntityKind.mention)
      || hasSub ("@" ++ selfU.username).data text.data
  let is_reply_to_me :=
    match replyTo with
    | some rm =>
      match rm.fromUser with
      | some u => u.id == selfU.id
      | none => false
    | none => false
  is_private || mentioned || is_reply_to_me

/-- Claim C4: `should_respond` returns true if and only if the chat is
private, or a mention entity is present, or the literal substring
`"@" + self_username` occurs in the text, or the event replies to a message
authored by the bot itself; in particular a group message with no mention
that replies to some other user gets `false`. -/
theorem c4_reply_policy (selfU : SelfUser) (chatType : ChatType) (text : String)
    (entities : List EntityKind) (replyTo : Option ReplyRef) :
    should_respond selfU chatType text entities replyTo = true ↔
      (chatType = ChatType.privateChat
        ∨ EntityKind.mention ∈ entities
        ∨ (∃ a b, text.data = a ++ ("@" ++ selfU.username).data ++ b)
        ∨ (∃ u, replyTo.bind ReplyRef.fromUser = some u ∧ u.id = selfU.id)) := by
  rcases replyTo with _ | ⟨_ | u⟩ <;>
    simp [should_respond, List.any_eq_true, hasSub_iff, Option.bind, or_assoc]

/-! ### Storage and gateway failure oracles -/

/-- A storage (SQLite) failure surfaced by an awaited memory operation. -/
inductive StorageErr
  | ioFailure
deriving DecidableEq

/-- Classified OpenAI-call failures: `rateLimited` and `apiError` are the
`(RateLimitError, APIError)` clause of `llm_reply`; `otherExc` is any other
exception. -/
inductive LLMErr
  | rateLimited
  | apiError
  | otherExc
deriving DecidableEq

/-- `build_context` (`main.py` lines 168-173): awaits the latest summary,
then the recent text, and combines them. The two arguments are the outcomes
the two storage reads would produce; an exception from either read
propagates (there is no `try` in `build_context`). -/
def build_context (summaryRes recentRes : Except StorageErr String) :
    Except StorageErr String :=
  match summaryRes with
  | .error e => .error e
  | .ok summary =>
    match recentRes with
    | .error e => .error e
    | .ok recent =>
      .ok (if summary ≠ "" ∧ recent ≠ "" then summary ++ "\n--- Recent:\n" ++ recent
           else if summary ≠ "" then summary else recent)

/-! ### The turn orchestrator (`on_text`, `on_ai`, `on_start`) -/

/-- Which reply branch a text turn took. -/
inductive Branch
  | skipped
  | replied
  | failed
deriving DecidableEq

/-- Observable outcome of one `on_text` turn: the content stored for the
user message, the reply branch, what was emitted, the assistant content
stored (if any), and whether `maybe_summarize` was reached. -/
structure TextTurn where
  storedUserContent : String
  branch : Branch
  emitted : Option String
  storedAssistant : Option String
  schedulerChecked : Bool
deriving DecidableEq

/-- `on_text` (`main.py` lines 251-297). The user message (the stripped
text) is stored first; if the policy says no the handler returns at once
(silent ingestion, no scheduler check). Otherwise `build_context` runs
before the `try` block, so a context-read failure propagates and aborts the
turn; inside the `try`, a gateway success emits the reply truncated to
`maxReplyChars` and stores the full reply, a gateway failure emits an error
notice, and both fall through to the scheduler check. -/
def on_text (selfU : SelfUser) (ev : Event)
    (summaryRes recentRes : Except StorageErr String)
    (gw : Except LLMErr String) (maxReplyChars : Nat) :
    Except StorageErr TextTurn :=
  let text := pyStrip ev.text
  if should_respond selfU ev.chatType text ev.entities ev.replyTo then
    match build_context summaryRes recentRes with
    | .error e => .error e
    | .ok _context =>
      match gw with
      | .ok reply =>
        .ok ⟨text, Branch.replied, some (strTake reply maxReplyChars), some reply, true⟩
      | .error _ =>
        .ok ⟨text, Branch.failed, some "LLM error", none, true⟩
  else
    .ok ⟨text, Branch.skipped, none, none, false⟩

/-- Observable outcome of one `/ai` turn (`on_ai`). `storedUserContent` is
`none` when the handler returned the usage hint without storing anything. -/
structure AiTurn where
  storedUserContent : Option String
  branch : Branch
  emitted : Option String
  storedAssistant : Option String
  schedulerChecked : Bool
deriving DecidableEq

/-- Prompt resolution of `on_ai` (`main.py` lines 225-227): the stripped
command argument, else the stripped replied-to text, else empty. -/
def aiPrompt (args replyText : Option String) : String :=
  let prompt0 := pyStrip (args.getD "")
  if prompt0 = "" then
    match replyText with
    | some t => pyStrip t
    | none => ""
  else prompt0

/-- `on_ai` (`main.py` lines 219-248). An empty resolved prompt answers a
usage hint and returns without storing or scheduling. Otherwise
`"/ai " ++ prompt` is stored, the context is assembled (read failures
propagate), and both gateway branches fall through to the scheduler
check. -/
def on_ai (args : Option String) (replyText : Option String)
    (summaryRes recentRes : Except StorageErr String)
    (gw : Except LLMErr String) (maxReplyChars : Nat) :
    Except StorageErr AiTurn :=
  let prompt := aiPrompt args replyText
  if prompt = "" then
    .ok ⟨none, Branch.skipped, some "usage", none, false⟩
  else
    match build_context summaryRes recentRes with
    | .error e => .error e
    | .ok _context =>
      match gw with
      | .ok reply =>
        .ok ⟨some ("/ai " ++ prompt), Branch.replied,
          some (strTake reply maxReplyChars), some reply, true⟩
      | .error _ =>
        .ok ⟨some ("/ai " ++ prompt), Branch.failed, some "LLM error", none, true⟩

/-- Observable outcome of `on_start` (`main.py` lines 193-201): it stores
`msg.text or ""` as a user message, answers the greeting, and never runs
the scheduler check. -/
structure StartTurn where
  storedUserContent : String
  schedulerChecked : Bool
deriving DecidableEq

/-- `on_start` as a turn record. -/
def on_start_turn (txt : Option String) : StartTurn :=
  ⟨txt.getD "", false⟩

/-- Claim C1 counterexample: a group message with no mention and no
reply-to (a silent-ingestion turn) returns before `maybe_summarize`, so the
scheduler check does not run, contradicting the claim that it runs
regardless of the reply branch. -/
theorem c1_counterexample :
    on_text ⟨7, "mybot"⟩ ⟨ChatType.group, "hello there", [], none⟩
        (.ok "") (.ok "") (.ok "yo") 4096
      = .ok ⟨"hello there", Branch.skipped, none, none, false⟩ := by
  rfl

/-- Claim C1, amended: the scheduler check runs after the Replied and
Failed branches of `on_text` and after both `/ai` reply branches, but not
on Skipped silent-ingestion turns (the handler returns first), not when
`/ai` exits on an empty prompt, and never after the `/start` append. -/
theorem c1_scheduler_after_reply :
    (∀ selfU ev summaryRes recentRes gw mx t,
        on_text selfU ev summaryRes recentRes gw mx = .ok t →
          (t.schedulerChecked = true ↔ t.branch ≠ Branch.skipped))
    ∧ (∀ args rt summaryRes recentRes gw mx t,
        on_ai args rt summaryRes recentRes gw mx = .ok t →
          (t.schedulerChecked = true ↔ t.branch ≠ Branch.skipped))
    ∧ (∀ txt, (on_start_turn txt).schedulerChecked = false) := by
  refine ⟨?_, ?_, fun txt => rfl⟩
  · intro selfU ev summaryRes recentRes gw mx t h
    simp only [on_text] at h
    split at h
    · cases hb : build_context summaryRes recentRes with
      | error e => rw [hb] at h; cases h
      | ok ctx =>
        rw [hb] at h
        cases gw with
        | ok reply => cases h; simp
        | error e => cases h; simp
    · cases h; simp
  · intro args rt summaryRes recentRes gw mx t h
    simp only [on_ai] at h
    split at h
    · cases h; simp
    · cases hb : build_context summaryRes recentRes with
      | error e => rw [hb] at h; cases h
      | ok ctx =>
        rw [hb] at h
        cases gw with
        | ok reply => cases h; simp
        | error e => cases h; simp

/-- Claim C1 witness: on a private-chat turn that replied, the scheduler
check did run. -/
theorem c1_scheduler_after_reply_witness :
    (on_text ⟨7, "mybot"⟩ ⟨ChatType.privateChat, "hi", [], none⟩
        (.ok "") (.ok "") (.ok "yo") 4096
      = .ok ⟨"hi", Branch.replied, some "yo", some "yo", true⟩)
    ∧ (⟨"hi", Branch.replied, some "yo", some "yo", true⟩ : TextTurn).schedulerChecked = true := by
  have h0 : on_text ⟨7, "mybot"⟩ ⟨ChatType.privateChat, "hi", [], none⟩
      (.ok "") (.ok "") (.ok "yo") 4096
      = .ok ⟨"hi", Branch.replied, some "yo", some "yo", true⟩ := by rfl
  exact ⟨h0, (c1_scheduler_after_reply.1 ⟨7, "mybot"⟩ ⟨ChatType.privateChat, "hi", [], none⟩
    (.ok "") (.ok "") (.ok "yo") 4096 _ h0).mpr (by decide)⟩

/-- Claim C2 counterexample: a failed summary read propagates out of
`build_context` instead of being treated as empty, so the partial context
(the recent text alone) is not returned. -/
theorem c2_counterexample :
    build_context (.error .ioFailure) (.ok "recent lines") = .error .ioFailure
    ∧ build_context (.error .ioFailure) (.ok "recent lines") ≠ .ok "recent lines" :=
  ⟨rfl, fun h => by cases h⟩

/-- Claim C2, amended: a storage read failure during context assembly is
not degraded to an empty value: `build_context` re-raises the first failed
read, and since both orchestrator handlers (`on_text` and `on_ai`)
assemble context outside their `try` blocks, such a failure aborts the
conversational turn. -/
theorem c2_read_failure_aborts :
    (∀ e recentRes, build_context (.error e) recentRes = .error e)
    ∧ (∀ s e, build_context (.ok s) (.error e) = .error e)
    ∧ (∀ selfU ev e recentRes gw mx,
        should_respond selfU ev.chatType (pyStrip ev.text) ev.entities ev.replyTo = true →
        on_text selfU ev (.error e) recentRes gw mx = .error e)
    ∧ (∀ selfU ev s e gw mx,
        should_respond selfU ev.chatType (pyStrip ev.text) ev.entities ev.replyTo = true →
        on_text selfU ev (.ok s) (.error e) gw mx = .error e)
    ∧ (∀ args rt e recentRes gw mx, aiPrompt args rt ≠ "" →
        on_ai args rt (.error e) recentRes gw mx = .error e)
    ∧ (∀ args rt s e gw mx, aiPrompt args rt ≠ "" →
        on_ai args rt (.ok s) (.error e) gw mx = .error e) := by
  refine ⟨fun e recentRes => rfl, fun s e => rfl, ?_, ?_, ?_, ?_⟩
  · intro selfU ev e recentRes gw mx hpol
    simp only [on_text, hpol, if_true]
    rfl
  · intro selfU ev s e gw mx hpol
    simp only [on_text, hpol, if_true]
    rfl
  · intro args rt e recentRes gw mx hp
    simp only [on_ai]
    rw [if_neg hp]
    rfl
  · intro args rt s e gw mx hp
    simp only [on_ai]
    rw [if_neg hp]
    rfl

/-- Claim C2 witness: in a private chat (policy true) a failed summary read
aborts the text turn with the storage error, and a failed recent-messages
read likewise aborts an `/ai` turn with a non-empty prompt. -/
theorem c2_read_failure_aborts_witness :
    (on_text ⟨7, "mybot"⟩ ⟨ChatType.privateChat, "hi", [], none⟩
        (.error .ioFailure) (.ok "") (.ok "yo") 4096
      = .error .ioFailure)
    ∧ (on_ai (some "hello") none (.ok "summary") (.error .ioFailure) (.ok "yo") 4096
      = .error .ioFailure) :=
  ⟨c2_read_failure_aborts.2.2.1 ⟨7, "mybot"⟩ ⟨ChatType.privateChat, "hi", [], none⟩
      .ioFailure (.ok "") (.ok "yo") 4096 (by decide),
    c2_read_failure_aborts.2.2.2.2.2 (some "hello") none "summary" .ioFailure
      (.ok "yo") 4096 (by decide)⟩

/-- Stripping a string that contains a non-whitespace character leaves a
non-empty string. -/
theorem pyStrip_ne_empty (s : String)
    (hc : ∃ c, c ∈ s.data ∧ pyIsSpace c = false) : pyStrip s ≠ "" := by
  intro heq
  exact pyStripL_ne_nil s.data hc (congrArg String.data heq)

/-- Claim C9 counterexample: a whitespace-only inbound text (`"   "`) in a
private chat is stripped to the empty string and stored as a user Message
with empty content, violating the non-emptiness invariant. -/
theorem c9_counterexample :
    on_text ⟨7, "mybot"⟩ ⟨ChatType.privateChat, "   ", [], none⟩
        (.ok "") (.ok "") (.ok "hi") 4096
      = .ok ⟨"", Branch.replied, some "hi", some "hi", true⟩ := by
  rfl

/-- Claim C9, amended: the stored user content is the stripped inbound
text, hence non-empty whenever the inbound text contains a non-whitespace
character; whitespace-only text yields an empty stored content. The stored
assistant content is exactly the gateway reply (which the code never checks
for emptiness). -/
theorem c9_content_nonempty (selfU : SelfUser) (ev : Event)
    (summaryRes recentRes : Except StorageErr String)
    (gw : Except LLMErr String) (mx : Nat) (t : TextTurn)
    (h : on_text selfU ev summaryRes recentRes gw mx = .ok t) :
    ((∃ c, c ∈ ev.text.data ∧ pyIsSpace c = false) → t.storedUserContent ≠ "")
    ∧ (∀ s, t.storedAssistant = some s → gw = .ok s) := by
  simp only [on_text] at h
  split at h
  · cases hb : build_context summaryRes recentRes with
    | error e => rw [hb] at h; cases h
    | ok ctx =>
      rw [hb] at h
      cases gw with
      | ok reply =>
        cases h
        exact ⟨fun hc => pyStrip_ne_empty ev.text hc, fun s hs => by cases hs; rfl⟩
      | error e =>
        cases h
        exact ⟨fun hc => pyStrip_ne_empty ev.text hc, fun s hs => by cases hs⟩
  · cases h
    exact ⟨fun hc => pyStrip_ne_empty ev.text hc, fun s hs => by cases hs⟩

/-- Claim C9 witness: an inbound text with a non-whitespace character is
stored with non-empty content. -/
theorem c9_content_nonempty_witness :
    (on_text ⟨7, "mybot"⟩ ⟨ChatType.privateChat, "hi", [], none⟩
        (.ok "") (.ok "") (.ok "yo") 4096
      = .ok ⟨"hi", Branch.replied, some "yo", some "yo", true⟩)
    ∧ (⟨"hi", Branch.replied, some "yo", some "yo", true⟩ : TextTurn).storedUserContent ≠ "" := by
  have h0 : on_text ⟨7, "mybot"⟩ ⟨ChatType.privateChat, "hi", [], none⟩
      (.ok "") (.ok "") (.ok "yo") 4096
      = .ok ⟨"hi", Branch.replied, some "yo", some "yo", true⟩ := by rfl
  exact ⟨h0, (c9_content_nonempty ⟨7, "mybot"⟩ ⟨ChatType.privateChat, "hi", [], none⟩
    (.ok "") (.ok "") (.ok "yo") 4096 _ h0).1 ⟨'h', by decide, by decide⟩⟩

/-- Taking strictly fewer characters than a string has changes it. -/
theorem strTake_ne (s : String) (n : Nat) (h : n < s.length) :
    strTake s n ≠ s := by
  intro heq
  have h2 : s.data.take n = s.data := congrArg String.data heq
  have h3 := congrArg List.length h2
  rw [List.length_take] at h3
  have h4 : n < s.data.length := h
  omega

/-- Claim C10: when a successful reply is longer than `MAX_REPLY_CHARS`,
the transport receives only the first `MAX_REPLY_CHARS` characters while
the Conversation Store receives the full reply, so the stored history and
the delivered output differ; this holds in both the text handler and the
`/ai` handler. -/
theorem c10_truncation :
    (∀ selfU ev summaryRes recentRes reply mx t,
        on_text selfU ev summaryRes recentRes (.ok reply) mx = .ok t →
        t.branch = Branch.replied → mx < reply.length →
        t.emitted = some (strTake reply mx) ∧ t.storedAssistant = some reply
          ∧ strTake reply mx ≠ reply)
    ∧ (∀ args rt summaryRes recentRes reply mx t,
        on_ai args rt summaryRes recentRes (.ok reply) mx = .ok t →
        t.branch = Branch.replied → mx < reply.length →
        t.emitted = some (strTake reply mx) ∧ t.storedAssistant = some reply
          ∧ strTake reply mx ≠ reply) := by
  constructor
  · intro selfU ev summaryRes recentRes reply mx t h hbr hlen
    simp only [on_text] at h
    split at h
    · cases hb : build_context summaryRes recentRes with
      | error e => rw [hb] at h; cases h
      | ok ctx =>
        rw [hb] at h
        cases h
        exact ⟨rfl, rfl, strTake_ne reply mx hlen⟩
    · cases h
      cases hbr
  · intro args rt summaryRes recentRes reply mx t h hbr hlen
    simp only [on_ai] at h
    split at h
    · cases h
      cases hbr
    · cases hb : build_context summaryRes recentRes with
      | error e => rw [hb] at h; cases h
      | ok ctx =>
        rw [hb] at h
        cases h
        exact ⟨rfl, rfl, strTake_ne reply mx hlen⟩

/-- Claim C10 witness: a 3-character reply with a 2-character budget is
emitted truncated and stored in full. -/
theorem c10_truncation_witness :
    (on_text ⟨7, "mybot"⟩ ⟨ChatType.privateChat, "hi", [], none⟩
        (.ok "") (.ok "") (.ok "abc") 2
      = .ok ⟨"hi", Branch.replied, some "ab", some "abc", true⟩)
    ∧ strTake "abc" 2 ≠ "abc" := by
  have h0 : on_text ⟨7, "mybot"⟩ ⟨ChatType.privateChat, "hi", [], none⟩
      (.ok "") (.ok "") (.ok "abc") 2
      = .ok ⟨"hi", Branch.replied, some "ab", some "abc", true⟩ := by rfl
  exact ⟨h0, (c10_truncation.1 ⟨7, "mybot"⟩ ⟨ChatType.privateChat, "hi", [], none⟩
    (.ok "") (.ok "") "abc" 2 _ h0 rfl (by decide)).2.2⟩

/-! ### The summarization scheduler (`maybe_summarize`, lines 175-190) -/

/-- What one run of `maybe_summarize` observably did: whether the Model
Gateway was invoked, and the summary content appended (if any). -/
structure SummarizeRun where
  gatewayInvoked : Bool
  appended : Option String
deriving DecidableEq

/-- `maybe_summarize` (`main.py` lines 175-190). `countRes` and `recentRes`
are the outcomes of the two storage reads (`count_messages` and the
oversized `get_recent_text`), which run before the `try` block, so their
failures propagate. `gw` is the outcome of `llm_reply` and `saveRes` the
outcome `save_summary` would produce for a given content; exceptions from
either are swallowed by the bare `except: pass`. `n` is the positive
configuration value `SUMMARY_EVERY_N_MESSAGES`. -/
def maybe_summarize (countRes : Except StorageErr Nat) (n : Nat)
    (recentRes : Except StorageErr String) (gw : Except LLMErr String)
    (saveRes : String → Except StorageErr Unit) :
    Except StorageErr SummarizeRun :=
  match countRes with
  | .error e => .error e
  | .ok count =>
    if 0 < count ∧ count % n = 0 then
      match recentRes with
      | .error e => .error e
      | .ok _ctx =>
        match gw with
        | .error _ => .ok ⟨true, none⟩
        | .ok s =>
          match saveRes s with
          | .error _ => .ok ⟨true, none⟩
          | .ok _ => .ok ⟨true, some s⟩
    else .ok ⟨false, none⟩

/-- Claim C7: a summarization check invokes the Model Gateway exactly when
the message count is positive and divisible by `SUMMARY_EVERY_N_MESSAGES`,
and (when the gateway and the save succeed) appends the new summary exactly
under the same condition. -/
theorem c7_summary_trigger (count n : Nat) (ctx s : String) (hn : 0 < n) :
    (∀ gw saveRes, ∃ out,
        maybe_summarize (.ok count) n (.ok ctx) gw saveRes = .ok out
          ∧ (out.gatewayInvoked = true ↔ (0 < count ∧ count % n = 0)))
    ∧ (maybe_summarize (.ok count) n (.ok ctx) (.ok s) (fun _ => .ok ())
          = .ok ⟨true, some s⟩
        ↔ (0 < count ∧ count % n = 0)) := by
  have _hn := hn
  constructor
  · intro gw saveRes
    by_cases htr : 0 < count ∧ count % n = 0
    · cases gw with
      | error e =>
        exact ⟨⟨true, none⟩, by simp [maybe_summarize, htr], by simpa using htr⟩
      | ok s' =>
        cases hs : saveRes s' with
        | error e =>
          exact ⟨⟨true, none⟩, by simp [maybe_summarize, htr, hs], by simpa using htr⟩
        | ok u =>
          exact ⟨⟨true, some s'⟩, by simp [maybe_summarize, htr, hs], by simpa using htr⟩
    · exact ⟨⟨false, none⟩, by simp [maybe_summarize, htr], by simpa using htr⟩
  · by_cases htr : 0 < count ∧ count % n = 0
    · simp [maybe_summarize, htr]
    · simp [maybe_summarize, htr]

/-- Claim C7 witness: with 160 stored messages and `N = 80` the check
triggers and appends; with 161 it does not. -/
theorem c7_summary_trigger_witness :
    (maybe_summarize (.ok 160) 80 (.ok "ctx") (.ok "notes") (fun _ => .ok ())
      = .ok ⟨true, some "notes"⟩)
    ∧ (maybe_summarize (.ok 161) 80 (.ok "ctx") (.ok "notes") (fun _ => .ok ())
      ≠ .ok ⟨true, some "notes"⟩) := by
  constructor
  · exact (c7_summary_trigger 160 80 "ctx" "notes" (by decide)).2.mpr (by decide)
  · intro h
    exact absurd ((c7_summary_trigger 161 80 "ctx" "notes" (by decide)).2.mp h) (by decide)

/-- Claim C8 counterexample: a storage failure in the `count_messages` read
happens before the `try` block of `maybe_summarize` and propagates out of
the scheduler instead of being caught. -/
theorem c8_counterexample :
    maybe_summarize (.error .ioFailure) 80 (.ok "") (.ok "notes") (fun _ => .ok ())
      = .error .ioFailure := by
  rfl

/-- Claim C8, amended: gateway failures and summary-save failures are
caught and discarded inside the scheduler (the run ends with nothing
appended), but storage failures in the message-count read or in the
oversized-context read happen before the `try` block and propagate out of
`maybe_summarize`. -/
theorem c8_summarize_containment :
    (∀ count n ctx e saveRes, ∃ out,
        maybe_summarize (.ok count) n (.ok ctx) (.error e) saveRes = .ok out
          ∧ out.appended = none)
    ∧ (∀ count n ctx s e', ∃ out,
        maybe_summarize (.ok count) n (.ok ctx) (.ok s)
            (fun _ => .error e') = .ok out
          ∧ out.appended = none)
    ∧ (∀ e n recentRes gw saveRes,
        maybe_summarize (.error e) n recentRes gw saveRes = .error e)
    ∧ (∀ count n e gw saveRes, 0 < count → count % n = 0 →
        maybe_summarize (.ok count) n (.error e) gw saveRes = .error e) := by
  refine ⟨?_, ?_, fun e n recentRes gw saveRes => rfl, ?_⟩
  · intro count n ctx e saveRes
    by_cases htr : 0 < count ∧ count % n = 0
    · exact ⟨⟨true, none⟩, by simp [maybe_summarize, htr], rfl⟩
    · exact ⟨⟨false, none⟩, by simp [maybe_summarize, htr], rfl⟩
  · intro count n ctx s e'
    by_cases htr : 0 < count ∧ count % n = 0
    · exact ⟨⟨true, none⟩, by simp [maybe_summarize, htr], rfl⟩
    · exact ⟨⟨false, none⟩, by simp [maybe_summarize, htr], rfl⟩
  · intro count n e gw saveRes h1 h2
    simp [maybe_summarize, h1, h2]

/-- Claim C8 witness: at a triggering count, a failed oversized-context
read propagates; a failed gateway call is contained. -/
theorem c8_summarize_containment_witness :
    (maybe_summarize (.ok 80) 80 (.error .ioFailure) (.ok "notes") (fun _ => .ok ())
      = .error .ioFailure)
    ∧ (∃ out, maybe_summarize (.ok 80) 80 (.ok "ctx") (.error .rateLimited)
          (fun _ => .ok ()) = .ok out ∧ out.appended = none) :=
  ⟨c8_summarize_containment.2.2.2 80 80 .ioFailure (.ok "notes") (fun _ => .ok ())
      (by decide) (by decide),
    c8_summarize_containment.1 80 80 "ctx" .rateLimited (fun _ => .ok ())⟩

/-! ### The Conversation Store (`Memory`, lines 72-128) -/

/-- One row of the `messages` table. -/
structure Msg where
  id : Nat
  chatId : String
  userId : Option String
  username : Option String
  role : String
  content : String
  ts : Nat
deriving DecidableEq

/-- The order in which `SELECT ... ORDER BY ts DESC LIMIT 300` yields rows:
`ts` descending, and equal-`ts` rows by rowid descending (the backward scan
of the `(chat_id, ts)` index, whose entries end in the rowid). -/
def descKey (a b : Msg) : Prop :=
  b.ts < a.ts ∨ (b.ts = a.ts ∧ b.id ≤ a.id)

/-- Non-decreasing `(ts, id)` order, the chronological order of §3. -/
def ascKey (a b : Msg) : Prop :=
  a.ts < b.ts ∨ (a.ts = b.ts ∧ a.id ≤ b.id)

instance : DecidableRel descKey := fun a b =>
  decidable_of_iff (b.ts < a.ts ∨ (b.ts = a.ts ∧ b.id ≤ a.id)) Iff.rfl

instance : IsTotal Msg descKey :=
  ⟨fun a b => by simp only [descKey]; omega⟩

instance : IsTrans Msg descKey :=
  ⟨fun a b c hab hbc => by simp only [descKey] at hab hbc ⊢; omega⟩

/-- The `messages` table plus the autoincrement counter. -/
structure Store where
  messages : List Msg
  nextId : Nat
deriving DecidableEq

/-- The arguments of one `add_message` call, with `now` the value
`int(time.time())` read during that call. -/
structure AppendOp where
  chatId : String
  userId : Option String
  username : Option String
  role : String
  content : String
  now : Nat
deriving DecidableEq

/-- `Memory.add_message` (`main.py` lines 81-87): insert a fresh row with
the next autoincremented id. -/
def add_message (st : Store) (op : AppendOp) : Store :=
  ⟨st.messages
      ++ [⟨st.nextId, op.chatId, op.userId, op.username, op.role, op.content, op.now⟩],
    st.nextId + 1⟩

/-- A fresh database (SQLite autoincrement starts at 1). -/
def emptyStore : Store :=
  ⟨[], 1⟩

/-- Replay a sequence of `add_message` calls against a fresh database. -/
def replay (ops : List AppendOp) : Store :=
  ops.foldl add_message emptyStore

/-- The row window fetched by `get_recent_text`: the chat's rows in
`(ts, rowid)`-descending order, limited to 300. -/
def fetchDesc (st : Store) (chat : String) : List Msg :=
  (List.insertionSort descKey (st.messages.filter (fun m => m.chatId == chat))).take 300

/-- `rows[::-1]` (`main.py` line 95): the fetched window back in ascending
order. -/
def recentRows (st : Store) (chat : String) : List Msg :=
  (fetchDesc st chat).reverse

/-- Python `str.upper()` (character-wise upper-casing). -/
def pyUpper (s : String) : String :=
  ⟨s.data.map Char.toUpper⟩

/-- One rendered line `f"{role.upper()}({name}): {content}\n"` with
`name = username or role` (Python truthiness: `None` and `""` fall back to
the role). -/
def renderLine (m : Msg) : String :=
  let name :=
    match m.username with
    | some u => if u = "" then m.role else u
    | none => m.role
  pyUpper m.role ++ "(" ++ name ++ "): " ++ m.content ++ "\n"

/-- The accumulation loop of `get_recent_text` (`main.py` lines 96-103):
append each rendered line, then break once the running total has reached
the budget (so the crossing line is included). -/
def accumLines : List Msg → Nat → Nat → List String
  | [], _, _ => []
  | m :: rest, total, budget =>
    let line := renderLine m
    if budget ≤ total + line.length then [line]
    else line :: accumLines rest (total + line.length) budget

/-- The list of lines `get_recent_text` joins. -/
def recentLines (st : Store) (chat : String) (limitChars : Nat) : List String :=
  accumLines (recentRows st chat) 0 limitChars

/-- `Memory.get_recent_text` (`main.py` lines 89-104). -/
def get_recent_text (st : Store) (chat : String) (limitChars : Nat) : String :=
  String.join (recentLines st chat limitChars)

/-- Total rendered length of a list of lines. -/
def sumLen (l : List String) : Nat :=
  (l.map String.length).sum

/-- Length of the longest line in a list (0 if empty). -/
def maxLen (l : List String) : Nat :=
  (l.map String.length).foldr max 0

theorem accumLines_take (budget : Nat) :
    ∀ rows total, ∃ k, accumLines rows total budget = (rows.map renderLine).take k := by
  intro rows
  induction rows with
  | nil => intro total; exact ⟨0, rfl⟩
  | cons m rest ih =>
    intro total
    by_cases hstop : budget ≤ total + (renderLine m).length
    · exact ⟨1, by simp [accumLines, hstop]⟩
    · rcases ih (total + (renderLine m).length) with ⟨k, hk⟩
      exact ⟨k + 1, by simp [accumLines, hstop, hk]⟩

theorem accumLines_bound (budget : Nat) :
    ∀ rows total, sumLen (accumLines rows total budget)
      ≤ (budget - total) + maxLen (accumLines rows total budget) := by
  intro rows
  induction rows with
  | nil => intro total; simp [accumLines, sumLen, maxLen]
  | cons m rest ih =>
    intro total
    by_cases hstop : budget ≤ total + (renderLine m).length
    · simp only [accumLines, if_pos hstop]
      simp only [sumLen, maxLen, List.map_cons, List.map_nil, List.sum_cons,
        List.sum_nil, List.foldr_cons, List.foldr_nil]
      omega
    · simp only [accumLines, if_neg hstop]
      have h := ih (total + (renderLine m).length)
      simp only [sumLen, maxLen, List.map_cons, List.sum_cons, List.foldr_cons] at h ⊢
      omega

theorem accumLines_all (budget : Nat) :
    ∀ rows total, total + sumLen (rows.map renderLine) < budget →
      accumLines rows total budget = rows.map renderLine := by
  intro rows
  induction rows with
  | nil => intro total _; rfl
  | cons m rest ih =>
    intro total h
    have hsum : sumLen ((m :: rest).map renderLine)
        = (renderLine m).length + sumLen (rest.map renderLine) := by
      simp [sumLen]
    have hlen : ¬ budget ≤ total + (renderLine m).length := by omega
    simp only [accumLines, if_neg hlen, List.map_cons]
    rw [ih (total + (renderLine m).length) (by omega)]

/-- Claim C5: `get_recent_text` accumulates rendered lines from the oldest
end of the reversed 300-row window: its output is always a window-order
initial segment (so an over-budget window drops the newest rows), the total
rendered length exceeds the budget by at most one line's length, and a
window that fits under budget is returned whole. -/
theorem c5_recent_window (st : Store) (chat : String) (budget : Nat) :
    (∃ k, recentLines st chat budget = ((recentRows st chat).map renderLine).take k)
    ∧ sumLen (recentLines st chat budget)
        ≤ budget + maxLen (recentLines st chat budget)
    ∧ (sumLen ((recentRows st chat).map renderLine) < budget →
        recentLines st chat budget = (recentRows st chat).map renderLine) := by
  refine ⟨accumLines_take budget _ 0, ?_, ?_⟩
  · have h := accumLines_bound budget (recentRows st chat) 0
    simpa [recentLines] using h
  · intro h
    exact accumLines_all budget (recentRows st chat) 0 (by simpa using h)

/-- Claim C5 witness: a two-row store whose window fits in a 1000-character
budget is returned whole. -/
theorem c5_recent_window_witness :
    sumLen ((recentRows (replay [⟨"c", none, some "ann", "user", "hello", 10⟩,
          ⟨"c", none, none, "assistant", "hey", 11⟩]) "c").map renderLine) < 1000
    ∧ recentLines (replay [⟨"c", none, some "ann", "user", "hello", 10⟩,
          ⟨"c", none, none, "assistant", "hey", 11⟩]) "c" 1000
      = (recentRows (replay [⟨"c", none, some "ann", "user", "hello", 10⟩,
          ⟨"c", none, none, "assistant", "hey", 11⟩]) "c").map renderLine := by
  refine ⟨by decide, ?_⟩
  exact (c5_recent_window (replay [⟨"c", none, some "ann", "user", "hello", 10⟩,
    ⟨"c", none, none, "assistant", "hey", 11⟩]) "c" 1000).2.2 (by decide)

/-- Claim C6: for every sequence of `add_message` calls (equal timestamps
included) and every chat, the rows of the recent window come back in
non-decreasing `(ts, id)` order. -/
theorem c6_recent_order (ops : List AppendOp) (chat : String) :
    List.Pairwise ascKey (recentRows (replay ops) chat) := by
  unfold recentRows fetchDesc
  apply List.pairwise_reverse.mpr
  have hs : List.Pairwise descKey
      (List.insertionSort descKey
        ((replay ops).messages.filter (fun m => m.chatId == chat))) :=
    List.sorted_insertionSort descKey _
  have ht := hs.sublist (List.take_sublist 300 _)
  exact ht.imp (fun {a b} h => h)

/-! ### The Model Gateway (`llm_reply`, lines 139-165) -/

/-- Whether an error is caught by the `(RateLimitError, APIError)` clause
(the backoff-and-jitter branch) rather than the bare `except` clause. -/
def isTransient : LLMErr → Bool
  | .rateLimited => true
  | .apiError => true
  | .otherExc => false

/-- The retry loop of `llm_reply`: the list argument is the remaining
attempt indices (`range(6)` at the top call), `backoff` the current backoff
value. `f` gives each attempt's outcome (the raw `content or ""` on
success) and `r` the `random.random()` draw of each attempt. Returns the
result and the list of sleep durations, in order. On the last remaining
attempt an error re-raises (`if attempt == 5: raise`); otherwise a
transient error sleeps `backoff + random()*backoff` and doubles the
backoff up to the cap 8, and any other error sleeps a fixed 1.2 s. -/
def llm_from (f : Nat → Except LLMErr String) (r : Nat → ℚ) :
    List Nat → ℚ → Except LLMErr String × List ℚ
  | [], _ => (.error .otherExc, [])
  | [a], _ =>
    (match f a with
      | .ok s => .ok (pyStrip s)
      | .error e => .error e, [])
  | a :: a' :: rest, backoff =>
    match f a with
    | .ok s => (.ok (pyStrip s), [])
    | .error e =>
      if isTransient e then
        ((llm_from f r (a' :: rest) (min (backoff * 2) 8)).1,
          (backoff + r a * backoff) :: (llm_from f r (a' :: rest) (min (backoff * 2) 8)).2)
      else
        ((llm_from f r (a' :: rest) backoff).1,
          (6/5 : ℚ) :: (llm_from f r (a' :: rest) backoff).2)

/-- `llm_reply` (`main.py` lines 139-165): six attempts, backoff starting
at 0.8. -/
def llm_reply (f : Nat → Except LLMErr String) (r : Nat → ℚ) :
    Except LLMErr String × List ℚ :=
  llm_from f r [0, 1, 2, 3, 4, 5] ((4:ℚ)/5)

/-- Whether attempt `j` fails with an error of the transient class. -/
def isTransientAt (f : Nat → Except LLMErr String) (j : Nat) : Bool :=
  match f j with
  | .error e => isTransient e
  | .ok _ => false

/-- Number of transient-error attempts before attempt `i`. -/
def retryCount (f : Nat → Except LLMErr String) (i : Nat) : Nat :=
  ((List.range i).filter (fun j => isTransientAt f j)).length

/-- Following the spec's words: the backoff in force at attempt `i` starts
at 0.8 s, doubles on each transient retry, and is capped at 8 s. -/
def specBackoff (f : Nat → Except LLMErr String) (i : Nat) : ℚ :=
  min ((4:ℚ)/5 * 2 ^ retryCount f i) 8

/-- Following the spec's words: the sleep after a failed attempt `i` is
`backoff + jitter` with `jitter = random() × backoff` for a transient
error, and a fixed 1.2 s otherwise. -/
def specSleep (f : Nat → Except LLMErr String) (r : Nat → ℚ) (i : Nat) : ℚ :=
  if isTransientAt f i then specBackoff f i + r i * specBackoff f i else 6/5

theorem retryCount_succ (f : Nat → Except LLMErr String) (k : Nat) :
    retryCount f (k + 1)
      = retryCount f k + (if isTransientAt f k then 1 else 0) := by
  unfold retryCount
  rw [List.range_succ, List.filter_append, List.length_append]
  by_cases h : isTransientAt f k <;> simp [h, List.filter]

theorem specBackoff_zero (f : Nat → Except LLMErr String) :
    specBackoff f 0 = 4/5 := by
  unfold specBackoff retryCount
  norm_num

theorem specBackoff_le (f : Nat → Except LLMErr String) (i : Nat) :
    specBackoff f i ≤ 8 :=
  min_le_right _ _

theorem le_specBackoff (f : Nat → Except LLMErr String) (i : Nat) :
    (4:ℚ)/5 ≤ specBackoff f i := by
  unfold specBackoff
  apply le_min
  · have h2 : (1:ℚ) ≤ 2 ^ retryCount f i := one_le_pow₀ (by norm_num)
    nlinarith
  · norm_num

theorem specBackoff_succ (f : Nat → Except LLMErr String) (k : Nat) :
    specBackoff f (k + 1)
      = if isTransientAt f k then min (specBackoff f k * 2) 8
        else specBackoff f k := by
  unfold specBackoff
  rw [retryCount_succ]
  by_cases h : isTransientAt f k
  · simp only [h, if_true]
    rcases le_total ((4:ℚ)/5 * 2 ^ retryCount f k) 8 with hle | hge
    · rw [min_eq_left hle]
      congr 1
      ring
    · rw [min_eq_right hge]
      have h16 : (8:ℚ) ≤ 4/5 * 2 ^ (retryCount f k + 1) := by
        rw [pow_succ]
        nlinarith
      rw [min_eq_right h16]
      norm_num
  · simp [h]

theorem range'_ne (k n : Nat) : List.range' k (n + 1) ≠ [] := by
  rw [show List.range' k (n + 1) = k :: List.range' (k + 1) n from rfl]
  simp

/-- Unfolding equation of `llm_from` at a non-final attempt. -/
theorem llm_from_cons (f : Nat → Except LLMErr String) (r : Nat → ℚ)
    (a : Nat) (l : List Nat) (hl : l ≠ []) (b : ℚ) :
    llm_from f r (a :: l) b
      = match f a with
        | .ok s => (.ok (pyStrip s), [])
        | .error e =>
          if isTransient e then
            ((llm_from f r l (min (b * 2) 8)).1,
              (b + r a * b) :: (llm_from f r l (min (b * 2) 8)).2)
          else
            ((llm_from f r l b).1, (6/5 : ℚ) :: (llm_from f r l b).2) := by
  cases l with
  | nil => cases hl rfl
  | cons c cs => rfl

theorem llm_from_length (f : Nat → Except LLMErr String) (r : Nat → ℚ) :
    ∀ n k b, ((llm_from f r (List.range' k (n + 1)) b).2).length ≤ n := by
  intro n
  induction n with
  | zero =>
    intro k b
    rw [show List.range' k 1 = [k] from rfl]
    cases hf : f k <;> simp [llm_from, hf]
  | succ n ih =>
    intro k b
    rw [show List.range' k (n + 1 + 1) = k :: List.range' (k + 1) (n + 1) from rfl]
    rw [llm_from_cons f r k _ (range'_ne (k + 1) n) b]
    cases hf : f k with
    | ok s => simp
    | error e =>
      cases he : isTransient e <;> simp only [he, if_true, if_false, Bool.false_eq_true]
      · simpa using ih (k + 1) b
      · simpa using ih (k + 1) (min (b * 2) 8)

theorem llm_from_success (f : Nat → Except LLMErr String) (r : Nat → ℚ) :
    ∀ n k b j s, j ≤ n → f (k + j) = .ok s →
      (∀ j', j' < j → ∃ e, f (k + j') = .error e) →
      (llm_from f r (List.range' k (n + 1)) b).1 = .ok (pyStrip s)
        ∧ ((llm_from f r (List.range' k (n + 1)) b).2).length = j := by
  intro n
  induction n with
  | zero =>
    intro k b j s hj hok _hprev
    have hj0 : j = 0 := by omega
    subst hj0
    rw [show k + 0 = k from rfl] at hok
    rw [show List.range' k 1 = [k] from rfl]
    simp [llm_from, hok]
  | succ n ih =>
    intro k b j s hj hok hprev
    rw [show List.range' k (n + 1 + 1) = k :: List.range' (k + 1) (n + 1) from rfl]
    rw [llm_from_cons f r k _ (range'_ne (k + 1) n) b]
    cases j with
    | zero =>
      rw [show k + 0 = k from rfl] at hok
      simp [hok]
    | succ j' =>
      obtain ⟨e, he⟩ := hprev 0 (by omega)
      rw [show k + 0 = k from rfl] at he
      rw [he]
      have hok' : f (k + 1 + j') = .ok s := by
        rw [show k + 1 + j' = k + (j' + 1) by omega]
        exact hok
      have hprev' : ∀ j'', j'' < j' → ∃ e', f (k + 1 + j'') = .error e' := by
        intro j'' hj''
        rw [show k + 1 + j'' = k + (j'' + 1) by omega]
        exact hprev (j'' + 1) (by omega)
      cases he2 : isTransient e <;> simp only [he2, if_true, if_false, Bool.false_eq_true]
      · have h := ih (k + 1) b j' s (by omega) hok' hprev'
        exact ⟨h.1, by simp [h.2]⟩
      · have h := ih (k + 1) (min (b * 2) 8) j' s (by omega) hok' hprev'
        exact ⟨h.1, by simp [h.2]⟩

theorem llm_from_terminal (f : Nat → Except LLMErr String) (r : Nat → ℚ) :
    ∀ n k b e, (∀ j, j ≤ n → ∃ e', f (k + j) = .error e') → f (k + n) = .error e →
      (llm_from f r (List.range' k (n + 1)) b).1 = .error e
        ∧ ((llm_from f r (List.range' k (n + 1)) b).2).length = n := by
  intro n
  induction n with
  | zero =>
    intro k b e _hall hlast
    rw [show k + 0 = k from rfl] at hlast
    rw [show List.range' k 1 = [k] from rfl]
    simp [llm_from, hlast]
  | succ n ih =>
    intro k b e hall hlast
    rw [show List.range' k (n + 1 + 1) = k :: List.range' (k + 1) (n + 1) from rfl]
    rw [llm_from_cons f r k _ (range'_ne (k + 1) n) b]
    obtain ⟨e0, he0⟩ := hall 0 (by omega)
    rw [show k + 0 = k from rfl] at he0
    rw [he0]
    have hall' : ∀ j, j ≤ n → ∃ e', f (k + 1 + j) = .error e' := by
      intro j hj
      rw [show k + 1 + j = k + (j + 1) by omega]
      exact hall (j + 1) (by omega)
    have hlast' : f (k + 1 + n) = .error e := by
      rw [show k + 1 + n = k + (n + 1) by omega]
      exact hlast
    cases he2 : isTransient e0 <;> simp only [he2, if_true, if_false, Bool.false_eq_true]
    · have h := ih (k + 1) b e hall' hlast'
      exact ⟨h.1, by simp [h.2]⟩
    · have h := ih (k + 1) (min (b * 2) 8) e hall' hlast'
      exact ⟨h.1, by simp [h.2]⟩

theorem llm_from_sleeps (f : Nat → Except LLMErr String) (r : Nat → ℚ) :
    ∀ n k b, b = specBackoff f k → ∃ L,
      (llm_from f r (List.range' k (n + 1)) b).2
        = (List.range' k L).map (specSleep f r) := by
  intro n
  induction n with
  | zero =>
    intro k b _hb
    rw [show List.range' k 1 = [k] from rfl]
    cases hf : f k <;> exact ⟨0, by simp [llm_from, hf]⟩
  | succ n ih =>
    intro k b hb
    rw [show List.range' k (n + 1 + 1) = k :: List.range' (k + 1) (n + 1) from rfl]
    rw [llm_from_cons f r k _ (range'_ne (k + 1) n) b]
    cases hf : f k with
    | ok s => exact ⟨0, by simp⟩
    | error e =>
      have htA : isTransientAt f k = isTransient e := by
        simp [isTransientAt, hf]
      cases he2 : isTransient e
      · have hb' : b = specBackoff f (k + 1) := by
          rw [specBackoff_succ, htA, he2]
          simpa using hb
        obtain ⟨L, hL⟩ := ih (k + 1) b hb'
        refine ⟨L + 1, ?_⟩
        simp only [he2, Bool.false_eq_true, if_false]
        rw [show List.range' k (L + 1) = k :: List.range' (k + 1) L from rfl,
          List.map_cons, hL]
        have hhead : specSleep f r k = 6/5 := by
          simp [specSleep, htA, he2]
        rw [hhead]
      · have hb' : min (b * 2) 8 = specBackoff f (k + 1) := by
          rw [specBackoff_succ, htA, he2, hb]
          simp
        obtain ⟨L, hL⟩ := ih (k + 1) (min (b * 2) 8) hb'
        refine ⟨L + 1, ?_⟩
        simp only [he2, if_true]
        rw [show List.range' k (L + 1) = k :: List.range' (k + 1) L from rfl,
          List.map_cons, hL]
        have hhead : specSleep f r k = b + r k * b := by
          simp [specSleep, htA, he2, hb]
        rw [hhead]

theorem llm_from_errorAt (f : Nat → Except LLMErr String) (r : Nat → ℚ) :
    ∀ n k b j, j < ((llm_from f r (List.range' k (n + 1)) b).2).length →
      ∃ e, f (k + j) = .error e := by
  intro n
  induction n with
  | zero =>
    intro k b j hj
    rw [show List.range' k 1 = [k] from rfl] at hj
    cases hf : f k <;> rw [show llm_from f r [k] b
        = (match f k with
            | .ok s => .ok (pyStrip s)
            | .error e => .error e, []) from rfl] at hj <;>
      simp [hf] at hj
  | succ n ih =>
    intro k b j hj
    rw [show List.range' k (n + 1 + 1) = k :: List.range' (k + 1) (n + 1) from rfl] at hj
    rw [llm_from_cons f r k _ (range'_ne (k + 1) n) b] at hj
    cases hf : f k with
    | ok s => rw [hf] at hj; simp at hj
    | error e =>
      rw [hf] at hj
      simp only [] at hj
      cases j with
      | zero => exact ⟨e, by simpa using hf⟩
      | succ j' =>
        cases he2 : isTransient e <;> simp only [he2, Bool.false_eq_true, if_false,
          if_true, List.length_cons] at hj
        · have h := ih (k + 1) b j' (by omega)
          rcases h with ⟨e', he'⟩
          exact ⟨e', by rw [show k + (j' + 1) = k + 1 + j' by omega]; exact he'⟩
        · have h := ih (k + 1) (min (b * 2) 8) j' (by omega)
          rcases h with ⟨e', he'⟩
          exact ⟨e', by rw [show k + (j' + 1) = k + 1 + j' by omega]; exact he'⟩

/-- Claim C3: the Model Gateway makes at most 6 attempts (at most 5 retry
sleeps); a first success at attempt `j ≤ 5` returns the stripped value
after exactly `j` sleeps; six failures re-raise the sixth error after 5
sleeps; every sleep follows a failed attempt and equals `specSleep`:
backoff plus a jitter in `[0, backoff)` for a transient error (with the
backoff starting at 0.8, doubling on each transient retry, capped at 8 and
never below 0.8) and a fixed 1.2 s for any other error. -/
theorem c3_gateway_retry (f : Nat → Except LLMErr String) (r : Nat → ℚ)
    (hr : ∀ i, 0 ≤ r i ∧ r i < 1) :
    ((llm_reply f r).2).length ≤ 5
    ∧ (∀ j s, j ≤ 5 → f j = .ok s → (∀ j', j' < j → ∃ e, f j' = .error e) →
        (llm_reply f r).1 = .ok (pyStrip s) ∧ ((llm_reply f r).2).length = j)
    ∧ (∀ e, (∀ j, j ≤ 5 → ∃ e', f j = .error e') → f 5 = .error e →
        (llm_reply f r).1 = .error e ∧ ((llm_reply f r).2).length = 5)
    ∧ (llm_reply f r).2
        = (List.range' 0 ((llm_reply f r).2).length).map (specSleep f r)
    ∧ (∀ j, j < ((llm_reply f r).2).length → ∃ e, f j = .error e)
    ∧ (∀ i, isTransientAt f i = true →
        specSleep f r i = specBackoff f i + r i * specBackoff f i
          ∧ 0 ≤ r i * specBackoff f i ∧ r i * specBackoff f i < specBackoff f i)
    ∧ (∀ i, isTransientAt f i = false → specSleep f r i = 6/5)
    ∧ specBackoff f 0 = 4/5
    ∧ (∀ i, specBackoff f (i + 1)
        = if isTransientAt f i then min (specBackoff f i * 2) 8
          else specBackoff f i)
    ∧ (∀ i, (4:ℚ)/5 ≤ specBackoff f i ∧ specBackoff f i ≤ 8) := by
  have hrepl : llm_reply f r
      = llm_from f r (List.range' 0 (5 + 1)) ((4:ℚ)/5) := rfl
  have hSBpos : ∀ i, (0:ℚ) < specBackoff f i := by
    intro i
    exact lt_of_lt_of_le (by norm_num) (le_specBackoff f i)
  refine ⟨?_, ?_, ?_, ?_, ?_, ?_, ?_, specBackoff_zero f, specBackoff_succ f, ?_⟩
  · rw [hrepl]
    exact llm_from_length f r 5 0 ((4:ℚ)/5)
  · intro j s hj hok hprev
    rw [hrepl]
    exact llm_from_success f r 5 0 ((4:ℚ)/5) j s hj (by simpa using hok)
      (fun j' hj' => by simpa using hprev j' hj')
  · intro e hall h5
    rw [hrepl]
    exact llm_from_terminal f r 5 0 ((4:ℚ)/5) e
      (fun j hj => by simpa using hall j hj) (by simpa using h5)
  · obtain ⟨L, hL⟩ := llm_from_sleeps f r 5 0 ((4:ℚ)/5) (specBackoff_zero f).symm
    rw [hrepl, hL]
    have hlen : ((List.range' 0 L).map (specSleep f r)).length = L := by simp
    rw [hlen]
  · intro j hj
    rw [hrepl] at hj
    have h := llm_from_errorAt f r 5 0 ((4:ℚ)/5) j hj
    simpa using h
  · intro i hti
    refine ⟨by simp [specSleep, hti], ?_, ?_⟩
    · exact mul_nonneg (hr i).1 (le_of_lt (hSBpos i))
    · exact (mul_lt_iff_lt_one_left (hSBpos i)).mpr (hr i).2
  · intro i hti
    simp [specSleep, hti]
  · intro i
    exact ⟨le_specBackoff f i, specBackoff_le f i⟩

/-- Claim C3 witness: two rate-limited attempts followed by a success
return the stripped reply after exactly two sleeps. -/
theorem c3_gateway_retry_witness :
    ((llm_reply (fun i => if i < 2 then .error .rateLimited else .ok "  hi  ")
        (fun _ => (1:ℚ)/2)).1 = .ok "hi")
    ∧ ((llm_reply (fun i => if i < 2 then .error .rateLimited else .ok "  hi  ")
        (fun _ => (1:ℚ)/2)).2).length = 2 := by
  have h := c3_gateway_retry
    (fun i => if i < 2 then .error .rateLimited else .ok "  hi  ")
    (fun _ => (1:ℚ)/2) (fun _ => by norm_num)
  have h2 := h.2.1 2 "  hi  " (by norm_num) rfl
    (fun j' hj' => ⟨.rateLimited, if_pos hj'⟩)
  refine ⟨?_, h2.2⟩
  rw [h2.1]
  rfl

end CB
